import Mathlib

/-!
Verification of the mypass-id demo-mobile-app core logic: the crypto helper
(encrypt/decrypt in CBC mode with PKCS padding, hex framing), the data
mapping layer, the application state store (credential table, error cell
timer), persistent state cells, and keychain-backed identity retrieval.

Shallow embedding conventions:
* JS strings holding binary data are modelled as byte lists (List Nat with
  every element below 256); JS strings holding text are List Char or String.
* The AES-256 block cipher comes from an external library (browserify-aes);
  it is an abstract parameter E / D of the CBC definitions.  The library
  validates key length (32 bytes for aes-256-cbc) and IV length (16 bytes)
  and throws otherwise; throwing is modelled as Option.none.
* Promises are modelled with Except (rejection) and Option (null).
-/

namespace MyPass

/-! ## Hex conversion (src/unnamed/part_000, convertByteArrayToHex) -/

/-- Lowercase hex digit for a value below 16 (JS Number.toString(16) on a
nibble), by character-code arithmetic; out-of-range values cannot arise
from a byte. -/
def hexDigitChar (d : Nat) : Char :=
  if d ≤ 9 then Char.ofNat (48 + d)
  else if d ≤ 15 then Char.ofNat (87 + d)
  else '0'

/-- convertByteArrayToHex: two lowercase hex digits per byte, high nibble
first.  Bytes are Nat below 256, so the negative-adjust branch of the
source is the identity.  Buffer.prototype.toString with encoding hex
produces the same encoding, so this also models ciphertext hex framing. -/
def convertByteArrayToHex : List Nat → List Char
  | [] => []
  | b :: rest => hexDigitChar (b >>> 4) :: hexDigitChar (b &&& 15) :: convertByteArrayToHex rest

/-- Value of one hex character (Buffer.from with encoding hex accepts both
cases), by character-code arithmetic; none for a non-hex character. -/
def hexCharVal (c : Char) : Option Nat :=
  if '0' ≤ c ∧ c ≤ '9' then some (c.toNat - 48)
  else if 'a' ≤ c ∧ c ≤ 'f' then some (c.toNat - 87)
  else if 'A' ≤ c ∧ c ≤ 'F' then some (c.toNat - 55)
  else none

/-- Buffer.from(s, hex): decode complete valid hex pairs from the start,
stop at the first invalid pair or odd tail. -/
def hexToBytes : List Char → List Nat
  | c1 :: c2 :: rest =>
    match hexCharVal c1, hexCharVal c2 with
    | some h, some l => (h * 16 + l) :: hexToBytes rest
    | _, _ => []
  | _ => []

/-! ## CBC mode with PKCS#7 padding (src/unnamed/part_000, encrypt / decrypt) -/

/-- Byte-wise xor of two equal-length blocks. -/
def zipXor (a b : List Nat) : List Nat := List.zipWith (· ^^^ ·) a b

/-- PKCS#7 pad amount for a plaintext length: between 1 and 16. -/
def padLen (n : Nat) : Nat := 16 - n % 16

/-- PKCS#7 padding to a multiple of the 16-byte block size. -/
def pkcs7pad (bs : List Nat) : List Nat :=
  bs ++ List.replicate (padLen bs.length) (padLen bs.length)

/-- PKCS#7 unpadding as performed by the external decipher on final():
the last byte names the pad amount, which must be between 1 and 16 and
must fill the tail; otherwise the decipher throws (none). -/
def pkcs7unpad (bs : List Nat) : Option (List Nat) :=
  match bs.getLast? with
  | none => none
  | some p =>
    if p = 0 ∨ 16 < p ∨ bs.length < p then none
    else if (bs.drop (bs.length - p)).all (· = p) then some (bs.take (bs.length - p))
    else none

/-- Split a byte list into 16-byte blocks (the block cipher core consumes
block-aligned input; the last chunk is short only if the input is not
block-aligned). -/
def chunks16 (bs : List Nat) : List (List Nat) :=
  if h : bs = [] then [] else bs.take 16 :: chunks16 (bs.drop 16)
termination_by bs.length
decreasing_by
  simp only [List.length_drop]
  have : bs.length ≠ 0 := fun hl => h (List.eq_nil_of_length_eq_zero hl)
  omega

/-- CBC encryption of a block list: each block is xor-chained with the
previous ciphertext block (initially the IV) and passed to the block
cipher E under the key. -/
def cbcEncBlocks (E : List Nat → List Nat → List Nat) (key : List Nat) :
    List Nat → List (List Nat) → List (List Nat)
  | _, [] => []
  | prev, b :: rest =>
    let c := E key (zipXor b prev)
    c :: cbcEncBlocks E key c rest

/-- CBC decryption of a block list: each ciphertext block is passed to the
inverse block cipher D and xor-ed with the previous ciphertext block
(initially the IV). -/
def cbcDecBlocks (D : List Nat → List Nat → List Nat) (key : List Nat) :
    List Nat → List (List Nat) → List (List Nat)
  | _, [] => []
  | prev, c :: rest => zipXor (D key c) prev :: cbcDecBlocks D key c rest

/-- encrypt(key, payload): with iv the 16 random bytes drawn by the call
(modelled as an explicit argument), CBC-encrypt the PKCS-padded payload
bytes and frame the result as hex(iv) ++ colon ++ hex(ciphertext).
createCipheriv throws (none) unless the key is 32 bytes and the IV 16. -/
def encrypt (E : List Nat → List Nat → List Nat) (key payload iv : List Nat) :
    Option (List Char) :=
  if key.length = 32 ∧ iv.length = 16 then
    some (convertByteArrayToHex iv ++ ':' ::
      convertByteArrayToHex (List.flatten (cbcEncBlocks E key iv (chunks16 (pkcs7pad payload)))))
  else none

/-- Split a character list at every colon (JS String.prototype.split). -/
def splitOnColon : List Char → List (List Char)
  | [] => [[]]
  | c :: rest =>
    if c = ':' then [] :: splitOnColon rest
    else
      match splitOnColon rest with
      | [] => [[c]]
      | p :: ps => (c :: p) :: ps

/-- Rejoin character lists with colons (JS Array.prototype.join). -/
def joinColon : List (List Char) → List Char
  | [] => []
  | [p] => p
  | p :: ps => p ++ ':' :: joinColon ps

/-- decrypt(key, payload): split on colons, decode the first part as the
IV and the rejoined rest as the ciphertext, CBC-decrypt and unpad.
createDecipheriv throws (none) unless the key is 32 bytes and the IV 16;
the decipher throws on empty or non-block-aligned ciphertext and on
invalid padding. -/
def decrypt (D : List Nat → List Nat → List Nat) (key : List Nat)
    (payload : List Char) : Option (List Nat) :=
  match splitOnColon payload with
  | [] => none
  | ivHex :: rest =>
    let iv := hexToBytes ivHex
    let ct := hexToBytes (joinColon rest)
    if key.length = 32 ∧ iv.length = 16 then
      if ct = [] ∨ ct.length % 16 ≠ 0 then none
      else pkcs7unpad (List.flatten (cbcDecBlocks D key iv (chunks16 ct)))
    else none

/-! ## Lemmas about hex framing -/

theorem hexDigitChar_ne_colon : ∀ d < 16, hexDigitChar d ≠ ':' := by
  decide

set_option maxRecDepth 8192 in
theorem hexCharVal_hexDigitChar : ∀ d < 16, hexCharVal (hexDigitChar d) = some d := by
  decide

set_option maxRecDepth 8192 in
theorem byte_recompose : ∀ b < 256, b >>> 4 * 16 + (b &&& 15) = b := by
  decide

set_option maxRecDepth 8192 in
theorem shiftRight4_lt : ∀ b < 256, b >>> 4 < 16 := by
  decide

theorem and15_lt (b : Nat) : b &&& 15 < 16 :=
  Nat.lt_succ_of_le (Nat.and_le_right)

theorem colon_not_mem_hex (bs : List Nat) (hb : ∀ b ∈ bs, b < 256) :
    ':' ∉ convertByteArrayToHex bs := by
  induction bs with
  | nil => simp [convertByteArrayToHex]
  | cons b rest ih =>
    have hblt := hb b (List.mem_cons_self b rest)
    simp only [convertByteArrayToHex, List.mem_cons, not_or]
    exact ⟨fun h => hexDigitChar_ne_colon _ (shiftRight4_lt b hblt) h.symm,
      fun h => hexDigitChar_ne_colon _ (and15_lt b) h.symm,
      ih fun x hx => hb x (List.mem_cons_of_mem b hx)⟩

theorem hexToBytes_convert (bs : List Nat) (h : ∀ b ∈ bs, b < 256) :
    hexToBytes (convertByteArrayToHex bs) = bs := by
  induction bs with
  | nil => rfl
  | cons b rest ih =>
    have hb : b < 256 := h b (List.mem_cons_self b rest)
    simp only [convertByteArrayToHex, hexToBytes,
      hexCharVal_hexDigitChar _ (shiftRight4_lt b hb),
      hexCharVal_hexDigitChar _ (and15_lt b),
      byte_recompose b hb]
    rw [ih fun x hx => h x (List.mem_cons_of_mem b hx)]

theorem splitOnColon_ne_nil (cs : List Char) : splitOnColon cs ≠ [] := by
  induction cs with
  | nil => simp [splitOnColon]
  | cons c rest ih =>
    simp only [splitOnColon]
    split
    · simp
    · cases hs : splitOnColon rest <;> simp

theorem joinColon_splitOnColon (cs : List Char) : joinColon (splitOnColon cs) = cs := by
  induction cs with
  | nil => rfl
  | cons c rest ih =>
    simp only [splitOnColon]
    split
    · rename_i hc
      subst hc
      cases hs : splitOnColon rest with
      | nil => exact absurd hs (splitOnColon_ne_nil rest)
      | cons p ps =>
        rw [hs] at ih
        simpa [joinColon] using ih
    · cases hs : splitOnColon rest with
      | nil => exact absurd hs (splitOnColon_ne_nil rest)
      | cons p ps =>
        rw [hs] at ih
        cases ps with
        | nil => simpa [joinColon] using ih
        | cons q qs => simpa [joinColon] using ih

theorem splitOnColon_append (a b : List Char) (ha : ':' ∉ a) :
    splitOnColon (a ++ ':' :: b) = a :: splitOnColon b := by
  induction a with
  | nil => simp [splitOnColon]
  | cons c rest ih =>
    have hc : c ≠ ':' := fun h => ha (h ▸ List.mem_cons_self c rest)
    have hrest : ':' ∉ rest := fun h => ha (List.mem_cons_of_mem c h)
    have hs := ih hrest
    simp only [List.cons_append, splitOnColon, if_neg hc, List.append_eq, hs]

/-! ## Lemmas about blocks, padding and CBC chaining -/

theorem flatten_chunks16 (bs : List Nat) : (chunks16 bs).flatten = bs := by
  induction bs using chunks16.induct with
  | case1 => rw [chunks16]; simp
  | case2 bs h ih => rw [chunks16]; simp [h, ih]

theorem chunks16_ne_nil (bs : List Nat) (h : bs ≠ []) : chunks16 bs ≠ [] := by
  rw [chunks16]
  simp [h]

theorem chunks16_spec (bs : List Nat) (hlen : bs.length % 16 = 0)
    (hlt : ∀ x ∈ bs, x < 256) :
    ∀ b ∈ chunks16 bs, b.length = 16 ∧ ∀ x ∈ b, x < 256 := by
  induction bs using chunks16.induct with
  | case1 => rw [chunks16]; simp
  | case2 bs h ih =>
    rw [chunks16, dif_neg h]
    intro b hb
    have hpos : 0 < bs.length := List.length_pos.mpr h
    have h16 : 16 ≤ bs.length := by omega
    rcases List.mem_cons.mp hb with hb | hb
    · subst hb
      refine ⟨by simp [List.length_take]; omega, fun x hx => hlt x (List.mem_of_mem_take hx)⟩
    · have hdl : (bs.drop 16).length % 16 = 0 := by
        simp only [List.length_drop]
        omega
      exact ih hdl (fun x hx => hlt x (List.mem_of_mem_drop hx)) b hb

theorem chunks16_flatten (blocks : List (List Nat))
    (h : ∀ b ∈ blocks, b.length = 16) : chunks16 blocks.flatten = blocks := by
  induction blocks with
  | nil => rw [chunks16]; simp
  | cons b rest ih =>
    have hb : b.length = 16 := h b (List.mem_cons_self b rest)
    have hne : (b :: rest).flatten ≠ [] := by
      simp only [List.flatten_cons]
      intro hcon
      have : b = [] := List.append_eq_nil.mp hcon |>.1
      rw [this] at hb
      simp at hb
    rw [chunks16, dif_neg hne]
    simp only [List.flatten_cons]
    rw [← hb, List.take_left, List.drop_left,
      ih fun x hx => h x (List.mem_cons_of_mem b hx)]

theorem flatten_length_const (blocks : List (List Nat))
    (h : ∀ b ∈ blocks, b.length = 16) : blocks.flatten.length = 16 * blocks.length := by
  induction blocks with
  | nil => simp
  | cons b rest ih =>
    simp only [List.flatten_cons, List.length_append, List.length_cons,
      h b (List.mem_cons_self b rest), ih fun x hx => h x (List.mem_cons_of_mem b hx)]
    ring

theorem zipXor_length (a b : List Nat) : (zipXor a b).length = min a.length b.length := by
  simp [zipXor]

theorem zipXor_lt : ∀ a b : List Nat, (∀ x ∈ a, x < 256) → (∀ x ∈ b, x < 256) →
    ∀ x ∈ zipXor a b, x < 256 := by
  intro a
  induction a with
  | nil => intro b _ _; simp [zipXor]
  | cons p ps ih =>
    intro b ha hb
    cases b with
    | nil => simp [zipXor]
    | cons q qs =>
      intro x hx
      simp only [zipXor, List.zipWith_cons_cons, List.mem_cons] at hx
      rcases hx with hx | hx
      · subst hx
        have h1 : p < 2 ^ 8 := ha p (List.mem_cons_self p ps)
        have h2 : q < 2 ^ 8 := hb q (List.mem_cons_self q qs)
        exact Nat.xor_lt_two_pow h1 h2
      · exact ih qs (fun y hy => ha y (List.mem_cons_of_mem p hy))
          (fun y hy => hb y (List.mem_cons_of_mem q hy)) x hx

theorem zipXor_cancel : ∀ a b : List Nat, a.length = b.length →
    zipXor (zipXor a b) b = a := by
  intro a
  induction a with
  | nil => intro b _; simp [zipXor]
  | cons p ps ih =>
    intro b h
    cases b with
    | nil => simp at h
    | cons q qs =>
      have hlen : ps.length = qs.length := by
        simp only [List.length_cons] at h
        omega
      have htail := ih qs hlen
      simp only [zipXor, List.zipWith_cons_cons] at htail ⊢
      rw [Nat.xor_cancel_right, htail]

theorem pkcs7pad_length (bs : List Nat) : (pkcs7pad bs).length % 16 = 0 := by
  simp only [pkcs7pad, List.length_append, List.length_replicate, padLen]
  omega

theorem pkcs7pad_ne_nil (bs : List Nat) : pkcs7pad bs ≠ [] := by
  simp only [pkcs7pad, padLen]
  intro h
  have := congrArg List.length h
  simp only [List.length_append, List.length_replicate, List.length_nil] at this
  omega

theorem pkcs7pad_lt (bs : List Nat) (h : ∀ x ∈ bs, x < 256) :
    ∀ x ∈ pkcs7pad bs, x < 256 := by
  intro x hx
  rcases List.mem_append.mp hx with hx | hx
  · exact h x hx
  · have := List.eq_of_mem_replicate hx
    subst this
    simp only [padLen]
    omega

theorem pkcs7unpad_pad (bs : List Nat) : pkcs7unpad (pkcs7pad bs) = some bs := by
  have hp1 : 1 ≤ padLen bs.length := by simp only [padLen]; omega
  have hp16 : padLen bs.length ≤ 16 := by simp only [padLen]; omega
  have hlast : (pkcs7pad bs).getLast? = some (padLen bs.length) := by
    rw [pkcs7pad, List.getLast?_append_of_ne_nil, List.getLast?_eq_head?_reverse,
      List.reverse_replicate]
    · cases hp : padLen bs.length with
      | zero => omega
      | succ n => simp [List.replicate]
    · intro hcon
      have := congrArg List.length hcon
      simp only [List.length_replicate, List.length_nil] at this
      omega
  have hlen : (pkcs7pad bs).length = bs.length + padLen bs.length := by
    simp [pkcs7pad]
  have hsub : (pkcs7pad bs).length - padLen bs.length = bs.length := by omega
  unfold pkcs7unpad
  rw [hlast]
  dsimp only
  rw [if_neg (by omega), hsub]
  rw [pkcs7pad, List.drop_left, List.take_left]
  rw [if_pos]
  simp [List.all_eq_true, List.eq_of_mem_replicate]

/-! ## CBC round trip -/

theorem cbcEnc_spec (E : List Nat → List Nat → List Nat) (key : List Nat)
    (hE : ∀ b, b.length = 16 → (∀ x ∈ b, x < 256) →
      (E key b).length = 16 ∧ ∀ x ∈ E key b, x < 256) :
    ∀ blocks prev, prev.length = 16 → (∀ x ∈ prev, x < 256) →
      (∀ b ∈ blocks, b.length = 16 ∧ ∀ x ∈ b, x < 256) →
      (∀ c ∈ cbcEncBlocks E key prev blocks, c.length = 16 ∧ ∀ x ∈ c, x < 256) ∧
        (cbcEncBlocks E key prev blocks).length = blocks.length := by
  intro blocks
  induction blocks with
  | nil => intro prev _ _ _; simp [cbcEncBlocks]
  | cons b rest ih =>
    intro prev hprevlen hprevlt hblocks
    have hb := hblocks b (List.mem_cons_self b rest)
    have hxlen : (zipXor b prev).length = 16 := by
      rw [zipXor_length, hb.1, hprevlen]
      simp
    have hxlt : ∀ x ∈ zipXor b prev, x < 256 := zipXor_lt b prev hb.2 hprevlt
    have hc := hE (zipXor b prev) hxlen hxlt
    have ihr := ih (E key (zipXor b prev)) hc.1 hc.2
      (fun x hx => hblocks x (List.mem_cons_of_mem b hx))
    constructor
    · intro c hc'
      rcases List.mem_cons.mp hc' with hc' | hc'
      · exact hc' ▸ hc
      · exact ihr.1 c hc'
    · simp only [cbcEncBlocks, List.length_cons, ihr.2]

theorem cbcDec_cbcEnc (E D : List Nat → List Nat → List Nat) (key : List Nat)
    (hE : ∀ b, b.length = 16 → (∀ x ∈ b, x < 256) →
      (E key b).length = 16 ∧ ∀ x ∈ E key b, x < 256)
    (hInv : ∀ b, b.length = 16 → (∀ x ∈ b, x < 256) → D key (E key b) = b) :
    ∀ blocks prev, prev.length = 16 → (∀ x ∈ prev, x < 256) →
      (∀ b ∈ blocks, b.length = 16 ∧ ∀ x ∈ b, x < 256) →
      cbcDecBlocks D key prev (cbcEncBlocks E key prev blocks) = blocks := by
  intro blocks
  induction blocks with
  | nil => intro prev _ _ _; rfl
  | cons b rest ih =>
    intro prev hprevlen hprevlt hblocks
    have hb := hblocks b (List.mem_cons_self b rest)
    have hxlen : (zipXor b prev).length = 16 := by
      rw [zipXor_length, hb.1, hprevlen]
      simp
    have hxlt : ∀ x ∈ zipXor b prev, x < 256 := zipXor_lt b prev hb.2 hprevlt
    have hc := hE (zipXor b prev) hxlen hxlt
    simp only [cbcEncBlocks, cbcDecBlocks]
    rw [hInv (zipXor b prev) hxlen hxlt, zipXor_cancel b prev (by rw [hb.1, hprevlen])]
    rw [ih (E key (zipXor b prev)) hc.1 hc.2
      (fun x hx => hblocks x (List.mem_cons_of_mem b hx))]

/-! ## Claim C1 -/

/-- Block cipher instance used to witness the abstract cipher interface:
it returns the input block unchanged, so every 16-byte block maps to a
16-byte block and it is its own inverse. -/
def idBlockCipher : List Nat → List Nat → List Nat := fun _ b => b

/-- C1 (amended: the key must be 32 bytes, as aes-256-cbc requires): for
every 32-byte key, every byte payload and every 16-byte IV drawn by the
call, encrypt(key, payload) returns hex(iv) ++ colon ++ hex(ciphertext)
and decrypt(key, that value) returns the payload, for any block cipher
pair E / D such that D inverts E on 16-byte blocks (as the external
AES-256 implementation does). -/
theorem encrypt_decrypt_roundtrip
    (E D : List Nat → List Nat → List Nat) (key payload iv : List Nat)
    (hkey : key.length = 32) (hiv : iv.length = 16)
    (hivb : ∀ x ∈ iv, x < 256) (hpay : ∀ x ∈ payload, x < 256)
    (hE : ∀ b, b.length = 16 → (∀ x ∈ b, x < 256) →
      (E key b).length = 16 ∧ ∀ x ∈ E key b, x < 256)
    (hInv : ∀ b, b.length = 16 → (∀ x ∈ b, x < 256) → D key (E key b) = b) :
    ∃ ct : List Nat,
      encrypt E key payload iv =
        some (convertByteArrayToHex iv ++ ':' :: convertByteArrayToHex ct) ∧
      decrypt D key (convertByteArrayToHex iv ++ ':' :: convertByteArrayToHex ct) =
        some payload := by
  have hblocks := chunks16_spec (pkcs7pad payload) (pkcs7pad_length payload)
    (pkcs7pad_lt payload hpay)
  have hcspec := cbcEnc_spec E key hE (chunks16 (pkcs7pad payload)) iv hiv hivb hblocks
  have hctlen : ∀ c ∈ cbcEncBlocks E key iv (chunks16 (pkcs7pad payload)), c.length = 16 :=
    fun c hc => (hcspec.1 c hc).1
  have hctlt : ∀ x ∈ (cbcEncBlocks E key iv (chunks16 (pkcs7pad payload))).flatten, x < 256 := by
    intro x hx
    rcases List.mem_flatten.mp hx with ⟨c, hc, hxc⟩
    exact (hcspec.1 c hc).2 x hxc
  refine ⟨(cbcEncBlocks E key iv (chunks16 (pkcs7pad payload))).flatten, ?_, ?_⟩
  · simp only [encrypt, if_pos (And.intro hkey hiv)]
  · have hflatlen : (cbcEncBlocks E key iv (chunks16 (pkcs7pad payload))).flatten.length =
        16 * (chunks16 (pkcs7pad payload)).length := by
      rw [flatten_length_const _ hctlen, hcspec.2]
    have hbne : chunks16 (pkcs7pad payload) ≠ [] :=
      chunks16_ne_nil _ (pkcs7pad_ne_nil payload)
    have hbpos : 0 < (chunks16 (pkcs7pad payload)).length := List.length_pos.mpr hbne
    rw [decrypt]
    rw [splitOnColon_append _ _ (colon_not_mem_hex iv hivb)]
    dsimp only
    rw [joinColon_splitOnColon, hexToBytes_convert iv hivb, hexToBytes_convert _ hctlt]
    rw [if_pos (And.intro hkey hiv)]
    have hguard : ¬((cbcEncBlocks E key iv (chunks16 (pkcs7pad payload))).flatten = [] ∨
        (cbcEncBlocks E key iv (chunks16 (pkcs7pad payload))).flatten.length % 16 ≠ 0) := by
      push_neg
      constructor
      · intro hcon
        have hl := congrArg List.length hcon
        rw [hflatlen] at hl
        simp only [List.length_nil] at hl
        omega
      · rw [hflatlen]
        omega
    rw [if_neg hguard]
    rw [chunks16_flatten _ hctlen,
      cbcDec_cbcEnc E D key hE hInv (chunks16 (pkcs7pad payload)) iv hiv hivb hblocks,
      flatten_chunks16, pkcs7unpad_pad]

/-- C1 witness: concrete 32-byte key, 2-byte payload and all-zero IV with
the identity block cipher; both hypotheses about the cipher hold
definitionally. -/
theorem encrypt_decrypt_roundtrip_witness :
    ∃ ct : List Nat,
      encrypt idBlockCipher (List.replicate 32 48) [104, 105] (List.replicate 16 0) =
        some (convertByteArrayToHex (List.replicate 16 0) ++ ':' :: convertByteArrayToHex ct) ∧
      decrypt idBlockCipher (List.replicate 32 48)
          (convertByteArrayToHex (List.replicate 16 0) ++ ':' :: convertByteArrayToHex ct) =
        some [104, 105] :=
  encrypt_decrypt_roundtrip idBlockCipher idBlockCipher
    (List.replicate 32 48) [104, 105] (List.replicate 16 0)
    (by decide) (by decide) (by decide) (by decide)
    (fun _ hl hlt => ⟨hl, hlt⟩) (fun _ _ _ => rfl)

/-- C1 counterexample for the claim as stated: with the 3-byte key
[97, 98, 99] (the UTF-8 bytes of abc), createCipheriv rejects the key
length for aes-256-cbc and encrypt throws, so no iv-colon-ciphertext
string is returned and decrypt(key, encrypt(key, payload)) cannot equal
the payload. -/
theorem encrypt_key_abc_fails :
    encrypt idBlockCipher [97, 98, 99] [104, 105] (List.replicate 16 0) = none := by
  decide

/-! ## Data mapping layer (src/unnamed/part_000) and its external shapes
(src/ui/lib/identity/index.ts, src/ui/lib/store.ts) -/

/-- Bank credential data (external shape). -/
structure BankData where
  BankName : String
  AccountType : String
  AccountNumber : String
  AccountIBAN : String
deriving DecidableEq

/-- Bank account credential information (internal shape; no IBAN field). -/
structure BankInfo where
  accountType : String
  bankName : String
  accountNumber : String
deriving DecidableEq

/-- prepareBankInformation: fixed field-by-field rename, dropping AccountIBAN. -/
def prepareBankInformation (bankData : BankData) : BankInfo :=
  { bankName := bankData.BankName
    accountNumber := bankData.AccountNumber
    accountType := bankData.AccountType }

/-- Commitment credential data (external shape, capitalized field names). -/
structure CommitmentData where
  CommitmentId : String
  CommitmentTitle : String
  CommitmentPercentage : Int
  CommitmentSupport : String
  CommitmentWalletPercentage : Int
deriving DecidableEq

/-- Commitment credential information (internal shape, camelCase names). -/
structure Commitment where
  commitmentId : String
  commitmentTitle : String
  commitmentPercentage : Int
  commitmentSupport : String
  commitmentWalletPercentage : Int
deriving DecidableEq

/-- Future Commitment data. -/
structure FutureCommitmentData where
  Commitments : List CommitmentData
deriving DecidableEq

/-- Present Commitment data. -/
structure PresentCommitmentData where
  Commitments : List CommitmentData
deriving DecidableEq

/-- Future Commitment info. -/
structure FutureCommitmentInfo where
  commitments : List Commitment
deriving DecidableEq

/-- Present Commitment info. -/
structure PresentCommitmentInfo where
  commitments : List Commitment
deriving DecidableEq

/-- prepareFutureCommitmentInformation: element-wise rename of the
commitments list. -/
def prepareFutureCommitmentInformation (futureCommitmentData : FutureCommitmentData) :
    FutureCommitmentInfo :=
  { commitments := futureCommitmentData.Commitments.map fun commitment =>
      { commitmentId := commitment.CommitmentId
        commitmentTitle := commitment.CommitmentTitle
        commitmentPercentage := commitment.CommitmentPercentage
        commitmentSupport := commitment.CommitmentSupport
        commitmentWalletPercentage := commitment.CommitmentWalletPercentage } }

/-- preparePresentCommitmentInformation: element-wise rename of the
commitments list. -/
def preparePresentCommitmentInformation (presentCommitmentData : PresentCommitmentData) :
    PresentCommitmentInfo :=
  { commitments := presentCommitmentData.Commitments.map fun commitment =>
      { commitmentId := commitment.CommitmentId
        commitmentTitle := commitment.CommitmentTitle
        commitmentPercentage := commitment.CommitmentPercentage
        commitmentSupport := commitment.CommitmentSupport
        commitmentWalletPercentage := commitment.CommitmentWalletPercentage } }

/-- C6: prepareBankInformation on the documented example is an exact field
rename with the AccountIBAN field dropped (the output shape has no IBAN
field and every retained value is unchanged). -/
theorem prepareBankInformation_example :
    prepareBankInformation
        { BankName := "Acme", AccountType := "Checking",
          AccountNumber := "123", AccountIBAN := "X" } =
      { bankName := "Acme", accountType := "Checking", accountNumber := "123" } := rfl

/-- C7: both commitment mappers return a commitments list of the same
length and order as the input, the i-th output commitment carrying
exactly the i-th input commitment's five values renamed to camelCase. -/
theorem commitment_mapping_elementwise (fd : FutureCommitmentData)
    (pd : PresentCommitmentData) :
    (prepareFutureCommitmentInformation fd).commitments.length = fd.Commitments.length ∧
    (preparePresentCommitmentInformation pd).commitments.length = pd.Commitments.length ∧
    (∀ i : Nat, (prepareFutureCommitmentInformation fd).commitments[i]? =
      (fd.Commitments[i]?).map fun c =>
        ({ commitmentId := c.CommitmentId
           commitmentTitle := c.CommitmentTitle
           commitmentPercentage := c.CommitmentPercentage
           commitmentSupport := c.CommitmentSupport
           commitmentWalletPercentage := c.CommitmentWalletPercentage } : Commitment)) ∧
    (∀ i : Nat, (preparePresentCommitmentInformation pd).commitments[i]? =
      (pd.Commitments[i]?).map fun c =>
        ({ commitmentId := c.CommitmentId
           commitmentTitle := c.CommitmentTitle
           commitmentPercentage := c.CommitmentPercentage
           commitmentSupport := c.CommitmentSupport
           commitmentWalletPercentage := c.CommitmentWalletPercentage } : Commitment)) := by
  refine ⟨?_, ?_, ?_, ?_⟩ <;>
    simp [prepareFutureCommitmentInformation, preparePresentCommitmentInformation,
      List.getElem?_map]

/-! ## Application state store (src/ui/lib/store.ts) -/

/-- Personal credential information; firstName and lastName are optional
in the source shape. -/
structure PersonalInfo where
  firstName : Option String
  lastName : Option String
  dateOfBirth : String
  birthPlace : String
  nationality : String
  countryOfResidence : String
  address : String
  identityCardNumber : String
  passportNumber : String
  phoneNumber : String
  email : String
deriving DecidableEq

/-- One credential table entry: heading, subheading, nullable data and the
optional channelId / password added during a share handshake. -/
structure CredentialEntry where
  heading : String
  subheading : String
  data : Option PersonalInfo
  channelId : Option String
  password : Option String
deriving DecidableEq

/-- The credential table: the eight fixed credential type keys, always
present. -/
structure Credentials where
  personal : CredentialEntry
  immunity : CredentialEntry
  visa : CredentialEntry
  company : CredentialEntry
  bank : CredentialEntry
  insurance : CredentialEntry
  futureCommitment : CredentialEntry
  presentCommitment : CredentialEntry
deriving DecidableEq

/-- The module-level defaultCredentials object of store.ts: every data
field null, fixed headings and subheadings. -/
def defaultCredentials : Credentials :=
  { personal :=
      { heading := "Home Office", subheading := "My Identity",
        data := none, channelId := none, password := none }
    immunity :=
      { heading := "Public Health Authority", subheading := "Health Certificate",
        data := none, channelId := none, password := none }
    visa :=
      { heading := "Foreign Border Agency", subheading := "Travel Visa",
        data := none, channelId := none, password := none }
    company :=
      { heading := "Company House", subheading := "Business Details",
        data := none, channelId := none, password := none }
    bank :=
      { heading := "SNS Bank", subheading := "Bank details",
        data := none, channelId := none, password := none }
    insurance :=
      { heading := "Insurance", subheading := "Insurance details",
        data := none, channelId := none, password := none }
    futureCommitment :=
      { heading := "The Far Future Foundation", subheading := "Future Commitment",
        data := none, channelId := none, password := none }
    presentCommitment :=
      { heading := "The Now Foundation", subheading := "Present Commitment",
        data := none, channelId := none, password := none } }

/-- Every data field of a credential table is null. -/
def allDataNull (c : Credentials) : Prop :=
  c.personal.data = none ∧ c.immunity.data = none ∧ c.visa.data = none ∧
  c.company.data = none ∧ c.bank.data = none ∧ c.insurance.data = none ∧
  c.futureCommitment.data = none ∧ c.presentCommitment.data = none

/-- Object reference identity of the module-level defaultCredentials
object: JS object identities are modelled as allocation tags; the module
object carries tag 0 and every later allocation draws a strictly larger
tag from the allocator. -/
def defaultCredentialsRef : Nat := 0

/-- The slice of application state touched by clearIdentity: the
persistent onboarding flag, the persistent data-version cell, the
credential table cell (its value and the allocation tag of the object it
holds), the allocator for fresh object tags, and the keychain
collaborator's storage. -/
structure AppState where
  hasSetupAccount : Bool
  dataVersion : Option String
  credentials : Credentials
  credentialsRef : Nat
  alloc : Nat
  keychain : List (String × String)
deriving DecidableEq

/-- clearIdentity(): set the onboarding flag to false, clear the data
version, set the credential table to cloneDeep(defaultCredentials) — the
same value under a freshly allocated object tag — and purge the keychain
(Keychain.clear()). -/
def clearIdentity (s : AppState) : AppState :=
  { hasSetupAccount := false
    dataVersion := none
    credentials := defaultCredentials
    credentialsRef := s.alloc
    alloc := s.alloc + 1
    keychain := [] }

/-- C2: after clearIdentity the onboarding flag is false, the data-version
cell is undefined, the credential table deep-equals the documented default
with all eight data fields null, it is a fresh object (its tag differs
from the module default object's tag and from every previously held table
object's tag), and the keychain storage is empty. -/
theorem clearIdentity_spec (s : AppState) (prev : List Nat)
    (hprev : ∀ r ∈ prev, r < s.alloc) (hdef : defaultCredentialsRef < s.alloc) :
    (clearIdentity s).hasSetupAccount = false ∧
    (clearIdentity s).dataVersion = none ∧
    (clearIdentity s).credentials = defaultCredentials ∧
    allDataNull (clearIdentity s).credentials ∧
    (clearIdentity s).credentialsRef ≠ defaultCredentialsRef ∧
    (clearIdentity s).credentialsRef ∉ prev ∧
    (clearIdentity s).keychain = [] := by
  refine ⟨rfl, rfl, rfl, ?_, ?_, ?_, rfl⟩
  · exact ⟨rfl, rfl, rfl, rfl, rfl, rfl, rfl, rfl⟩
  · intro hcon
    rw [show (clearIdentity s).credentialsRef = s.alloc from rfl] at hcon
    omega
  · intro hmem
    have := hprev _ hmem
    rw [show (clearIdentity s).credentialsRef = s.alloc from rfl] at hmem
    exact absurd (hprev _ hmem) (lt_irrefl _)

/-- Concrete populated state used to witness C2: onboarding done, a data
version set, the table object carrying tag 2, allocator at 3, one
keychain entry. -/
def sampleAppState : AppState :=
  { hasSetupAccount := true
    dataVersion := some "v1"
    credentials := defaultCredentials
    credentialsRef := 2
    alloc := 3
    keychain := [("did", "x")] }

/-- C2 witness: clearIdentity on the sample state, with previously held
table tags 1 and 2. -/
theorem clearIdentity_spec_witness :
    (clearIdentity sampleAppState).hasSetupAccount = false ∧
    (clearIdentity sampleAppState).dataVersion = none ∧
    (clearIdentity sampleAppState).credentials = defaultCredentials ∧
    allDataNull (clearIdentity sampleAppState).credentials ∧
    (clearIdentity sampleAppState).credentialsRef ≠ defaultCredentialsRef ∧
    (clearIdentity sampleAppState).credentialsRef ∉ [1, 2] ∧
    (clearIdentity sampleAppState).keychain = [] :=
  clearIdentity_spec sampleAppState [1, 2] (by decide) (by decide)

/-! ## The error cell and its auto-clear timer (src/ui/lib/store.ts) -/

/-- JS truthiness of the error cell's value: null and the empty string are
falsy, every other string is truthy. -/
def truthy : Option String → Bool
  | none => false
  | some s => s != ""

/-- State of the error cell: its value and, when an auto-clear timeout is
pending, the absolute time at which it will fire. -/
structure ErrorState where
  value : Option String
  timer : Option Nat
deriving DecidableEq

/-- error.set(v) at time t: the subscriber runs synchronously, first
clearTimeout on the stored handle (cancelling any pending clear), then,
exactly when the new value is truthy, setTimeout of a clear 3500ms
later. -/
def setError (t : Nat) (v : Option String) (_s : ErrorState) : ErrorState :=
  { value := v, timer := if truthy v then some (t + 3500) else none }

/-- State after a fired auto-clear: the callback runs error.set(null); the
subscriber cancels the already-fired timeout and, null being falsy,
schedules nothing. -/
def clearedState : ErrorState := { value := none, timer := none }

/-- Times at which the auto-clear fires, given time-ordered external set
events on the single-threaded event loop: a pending timer due no later
than the next event fires first, and a timer still pending after the last
event eventually fires. -/
def runFrom : ErrorState → List (Nat × Option String) → List Nat
  | s, [] =>
    match s.timer with
    | some tf => [tf]
    | none => []
  | s, (t, v) :: rest =>
    match s.timer with
    | some tf =>
      if tf ≤ t then tf :: runFrom (setError t v clearedState) rest
      else runFrom (setError t v s) rest
    | none => runFrom (setError t v s) rest

/-- C4: setting the error to a non-empty string at t1 and to another
non-empty string at t2 before t1 + 3500 produces exactly one auto-clear,
at t2 + 3500 (the first timer is cancelled, so none fires at t1 + 3500). -/
theorem error_double_set_single_clear (t1 t2 : Nat) (e1 e2 : String)
    (h1 : e1 ≠ "") (h2 : e2 ≠ "") (hle : t1 ≤ t2) (hlt : t2 < t1 + 3500) :
    runFrom { value := none, timer := none } [(t1, some e1), (t2, some e2)] =
      [t2 + 3500] := by
  have ht1 : truthy (some e1) = true := by
    simp [truthy, h1]
  have ht2 : truthy (some e2) = true := by
    simp [truthy, h2]
  simp only [runFrom, setError, ht1, ht2, if_true]
  rw [if_neg (by omega)]

/-- C4 witness: first error at 0, second at 1000; the only auto-clear is
at 4500. -/
theorem error_double_set_single_clear_witness :
    runFrom { value := none, timer := none } [(0, some "a"), (1000, some "b")] =
      [1000 + 3500] :=
  error_double_set_single_clear 0 1000 "a" "b" (by decide) (by decide)
    (by decide) (by decide)

/-- C9: every set cancels the pending timeout — the new timer is exactly
a fresh 3500ms clear when the new value is truthy and nothing otherwise
(so null or the empty string leaves no timer); a due timer fires as
error.set(null), continuing from a state whose value is null and whose
timer is empty. -/
theorem error_falsy_set_cancels (s : ErrorState) (t : Nat) (v : Option String) :
    (setError t v s).value = v ∧
    (setError t v s).timer = (if truthy v then some (t + 3500) else none) ∧
    clearedState.value = none ∧ clearedState.timer = none ∧
    (∀ rest tf, s.timer = some tf → tf ≤ t →
      runFrom s ((t, v) :: rest) = tf :: runFrom (setError t v clearedState) rest) := by
  refine ⟨rfl, rfl, rfl, rfl, ?_⟩
  intro rest tf htf hle
  simp only [runFrom, htf, if_pos hle]

/-- C9 witness: a pending clear at 10 with an error shown; setting the
cell to null at 12 leaves no timer, and the run fires the due clear at 10
then nothing further. -/
theorem error_falsy_set_cancels_witness :
    (setError 12 none { value := some "x", timer := some 10 }).timer = none ∧
    runFrom { value := some "x", timer := some 10 } [(12, none)] = [10] := by
  have h := error_falsy_set_cancels { value := some "x", timer := some 10 } 12 none
  constructor
  · rw [h.2.1]
    rfl
  · rw [h.2.2.2.2 [] 10 rfl (by omega)]
    rfl

/-! ## Persistent state cells (src/unnamed/part_000, persistent) -/

/-- Durable local storage: a synchronous string-keyed string store. -/
abbrev Storage : Type := String → Option String

/-- localStorage.setItem. -/
def setItem (st : Storage) (key v : String) : Storage :=
  fun k => if k = key then some v else st k

/-- persistent(key, initialValue) at startup, over an abstract JSON codec
(stringify for JSON.stringify, parseJ for JSON.parse with none for a
throw): read key from storage; a present, truthy (non-empty), parsable
entry rehydrates the cell, anything else falls back to initialValue (the
parse failure is caught and logged, not thrown); the writable store then
notifies the fresh subscription once with the current value, which is
serialized and mirrored to storage before the call returns.  The result
is the cell value paired with the updated storage. -/
def persistent {α : Type} (stringify : α → String) (parseJ : String → Option α)
    (key : String) (initialValue : α) (st : Storage) : α × Storage :=
  let value :=
    match st key with
    | some json =>
      if json ≠ "" then
        match parseJ json with
        | some w => w
        | none => initialValue
      else initialValue
    | none => initialValue
  (value, setItem st key (stringify value))

/-- A set on a persistent cell: the subscription serializes the new value
and writes it under key synchronously before the write returns. -/
def persistentSet {α : Type} (stringify : α → String) (key : String)
    (c : α × Storage) (v : α) : α × Storage :=
  (v, setItem c.2 key (stringify v))

/-- C5: writing v through a persistent cell and then constructing a new
cell for the same key after a restart (with any initial value) yields v
(the codec round-trips v, and JSON.stringify of a defined value is never
the empty string); a storage with no entry for the key, or an entry the
parser rejects, yields the supplied initialValue instead. -/
theorem persistent_roundtrip {α : Type} (stringify : α → String)
    (parseJ : String → Option α) (key : String) (init initNew v : α)
    (c : α × Storage)
    (hparse : parseJ (stringify v) = some v) (hne : stringify v ≠ "") :
    (persistent stringify parseJ key initNew (persistentSet stringify key c v).2).1 = v ∧
    (∀ st : Storage, st key = none →
      (persistent stringify parseJ key init st).1 = init) ∧
    (∀ (st : Storage) (j : String), st key = some j → parseJ j = none →
      (persistent stringify parseJ key init st).1 = init) := by
  refine ⟨?_, ?_, ?_⟩
  · have hlook : (persistentSet stringify key c v).2 key = some (stringify v) := by
      simp [persistentSet, setItem]
    simp only [persistent, hlook, if_pos hne, hparse]
  · intro st hst
    simp only [persistent, hst]
  · intro st j hst hj
    by_cases hjne : j ≠ ""
    · simp only [persistent, hst, if_pos hjne, hj]
    · simp only [persistent, hst, if_neg hjne]

/-- Serializer used to witness the persistent-cell codec interface. -/
def boolStringify : Bool → String := fun b => if b then "true" else "false"

/-- Parser used to witness the persistent-cell codec interface; rejects
anything that is not a serialized Bool. -/
def boolParse : String → Option Bool := fun s =>
  if s = "true" then some true else if s = "false" then some false else none

/-- C5 witness: a Bool cell under key k; true written through the cell is
read back after a restart with a different initial value, and both
failure fallbacks hold on concrete storages. -/
theorem persistent_roundtrip_witness :
    (persistent boolStringify boolParse "k" false
        (persistentSet boolStringify "k" (false, fun _ => none) true).2).1 = true ∧
    (persistent boolStringify boolParse "k" false (fun _ => none)).1 = false ∧
    (persistent boolStringify boolParse "k" false (fun _ => some "not json")).1 = false := by
  have h := persistent_roundtrip boolStringify boolParse "k" false false true
    (false, fun _ => none) (by decide) (by decide)
  exact ⟨h.1, h.2.1 (fun _ => none) rfl,
    h.2.2 (fun _ => some "not json") "not json" rfl (by decide)⟩

/-- C10: the subscription fires once during construction, so immediately
after persistent(key, initialValue) returns, the storage slot for key
holds the serialization of the cell's value; every later set re-
establishes that invariant, so after any sequence of sets through the
cell the slot still holds the serialization of the current value. -/
theorem persistent_writes_on_construction {α : Type} (stringify : α → String)
    (parseJ : String → Option α) (key : String) (initialValue : α) (st : Storage) :
    (persistent stringify parseJ key initialValue st).2 key =
      some (stringify (persistent stringify parseJ key initialValue st).1) ∧
    (∀ (c : α × Storage) (v : α),
      (persistentSet stringify key c v).2 key =
        some (stringify (persistentSet stringify key c v).1)) ∧
    (∀ vs : List α,
      (vs.foldl (persistentSet stringify key)
          (persistent stringify parseJ key initialValue st)).2 key =
        some (stringify (vs.foldl (persistentSet stringify key)
          (persistent stringify parseJ key initialValue st)).1)) := by
  refine ⟨by simp [persistent, setItem], fun c v => by simp [persistentSet, setItem], ?_⟩
  intro vs
  induction vs using List.reverseRecOn with
  | nil => simp [persistent, setItem]
  | append_singleton vs v _ =>
    rw [List.foldl_append]
    simp [persistentSet, setItem]

/-! ## Identity retrieval through the keychain (src/ui/lib/identity/index.ts) -/

/-- Key material of a personal identity object. -/
structure IdentityKeyMaterial where
  publicKey : String
  secret : String
  keyType : String
deriving DecidableEq

/-- Personal identity object. -/
structure Identity where
  did : String
  key : IdentityKeyMaterial
deriving DecidableEq

/-- The keychain collaborator's storage: opaque string values under string
keys. -/
abbrev Keychain : Type := List (String × String)

/-- Keychain.get: resolves with the stored value, rejects if the key is
absent (spec section 6 contract of the external keychain). -/
def keychainGet (kc : Keychain) (k : String) : Except String String :=
  match kc.lookup k with
  | some v => Except.ok v
  | none => Except.error "key not found"

/-- parse: JSON.parse inside try/catch, returning null on a parse error;
JSON.parse itself is external, abstracted as J with none for a throw. -/
def parse {α : Type} (J : String → Option α) (data : String) : Option α :=
  J data

/-- retrieveIdentity(identifier): Keychain.get, then parse of the value,
with a catch that resolves to null instead of rejecting. -/
def retrieveIdentity (J : String → Option Identity) (kc : Keychain)
    (identifier : String) : Except String (Option Identity) :=
  match (keychainGet kc identifier).map (fun v => parse J v) with
  | Except.ok r => Except.ok r
  | Except.error _ => Except.ok none

/-- retrieveCredential(credentialId): same contract as retrieveIdentity,
keyed by an arbitrary credential identifier. -/
def retrieveCredential {α : Type} (J : String → Option α) (kc : Keychain)
    (credentialId : String) : Except String (Option α) :=
  match (keychainGet kc credentialId).map (fun v => parse J v) with
  | Except.ok r => Except.ok r
  | Except.error _ => Except.ok none

/-- C3: retrieveIdentity and retrieveCredential always resolve (never
reject); when the keychain has no entry for the identifier they resolve
to null, when the stored string fails to parse they resolve to null, and
in particular retrieveIdentity against the empty keychain resolves to
null for every identifier. -/
theorem retrieve_resolves_null_on_failure {α : Type}
    (J : String → Option Identity) (J2 : String → Option α)
    (kc : Keychain) (identifier : String) :
    (∃ r, retrieveIdentity J kc identifier = Except.ok r) ∧
    (∃ r, retrieveCredential J2 kc identifier = Except.ok r) ∧
    (kc.lookup identifier = none →
      retrieveIdentity J kc identifier = Except.ok none ∧
      retrieveCredential J2 kc identifier = Except.ok none) ∧
    (∀ s, kc.lookup identifier = some s → J s = none →
      retrieveIdentity J kc identifier = Except.ok none) ∧
    (∀ s, kc.lookup identifier = some s → J2 s = none →
      retrieveCredential J2 kc identifier = Except.ok none) ∧
    retrieveIdentity J ([] : Keychain) identifier = Except.ok none := by
  refine ⟨?_, ?_, ?_, ?_, ?_, ?_⟩
  · cases h : kc.lookup identifier with
    | none => exact ⟨none, by simp [retrieveIdentity, keychainGet, h, Except.map]⟩
    | some v => exact ⟨parse J v, by simp [retrieveIdentity, keychainGet, h, Except.map]⟩
  · cases h : kc.lookup identifier with
    | none => exact ⟨none, by simp [retrieveCredential, keychainGet, h, Except.map]⟩
    | some v => exact ⟨parse J2 v, by simp [retrieveCredential, keychainGet, h, Except.map]⟩
  · intro h
    constructor <;>
      simp [retrieveIdentity, retrieveCredential, keychainGet, h, Except.map]
  · intro s hs hJ
    simp [retrieveIdentity, keychainGet, hs, parse, hJ, Except.map]
  · intro s hs hJ
    simp [retrieveCredential, keychainGet, hs, parse, hJ, Except.map]
  · simp [retrieveIdentity, keychainGet, List.lookup, Except.map]

/-- C3 witness: a parser that always fails, a keychain holding only key a;
retrieval of missing-key resolves to null against that keychain and
against the empty keychain, and retrieval of key a (whose value fails to
parse) also resolves to null. -/
theorem retrieve_resolves_null_on_failure_witness :
    retrieveIdentity (fun _ => none) [("a", "b")] "missing-key" = Except.ok none ∧
    retrieveIdentity (fun _ => none) ([] : Keychain) "missing-key" = Except.ok none ∧
    retrieveCredential (fun _ => (none : Option Nat)) [("a", "b")] "a" = Except.ok none := by
  have h1 := retrieve_resolves_null_on_failure (fun _ => none)
    (fun _ => (none : Option Nat)) [("a", "b")] "missing-key"
  have h2 := retrieve_resolves_null_on_failure (fun _ => none)
    (fun _ => (none : Option Nat)) [("a", "b")] "a"
  exact ⟨(h1.2.2.1 (by decide)).1, h1.2.2.2.2.2, h2.2.2.2.2.1 "b" (by decide) rfl⟩

end MyPass
